import Mathlib

set_option maxRecDepth 8000

/-!
Shallow embedding of the FilesStore module (app/lib/stores/files.ts) of the
bolt.new-any-llm repository: the file-tree synchronization engine that applies
batched filesystem watch events to an in-memory tree, classifies file content
as binary vs text, tracks a modification ledger, saves files through the
container, and bulk-imports a source tree with gitignore-style exclusion.

JavaScript strings are modelled as lists of Unicode code points (`Text`);
byte buffers as lists of byte values (`List Nat`); the JS number used for the
running file counter as `Int` (it can go negative).
-/

/-- A JS string, modelled as its list of Unicode code points. -/
abbrev Text := List Nat

/-- Dirent from files.ts: either a File (content plus isBinary flag) or a Folder. -/
inductive Dirent where
  | file (content : Text) (isBinary : Bool)
  | folder
deriving DecidableEq, Repr

/-- FileMap: Record from path to Dirent, modelled as an association list.
An absent key means the path does not exist. -/
abbrev FileMap := List (String × Dirent)

/-- Pointwise lookup in a FileMap (JS property access files[path]). -/
def lookupKey (m : FileMap) (k : String) : Option Dirent :=
  match m.find? (fun kv => kv.1 == k) with
  | some kv => some kv.2
  | none => none

/-- nanostores MapStore.setKey: setting a key to undefined (none) deletes it,
setting it to a value inserts or replaces the binding.  Entry order in the
list is irrelevant to the modelled behaviour, which only ever reads the map
pointwise. -/
def setKey (m : FileMap) (k : String) (v : Option Dirent) : FileMap :=
  match v with
  | none => m.filter (fun kv => kv.1 != k)
  | some d => m.filter (fun kv => kv.1 != k) ++ [(k, d)]

/-- The state of a FilesStore: the reactive files map, the running file
counter #size (a JS number, so modelled as Int), and the modification
ledger #modifiedFiles (a JS Map from path to original content, modelled as an
association list in insertion order). -/
structure FilesState where
  files : FileMap
  size : Int
  modifiedFiles : List (String × Text)
deriving DecidableEq, Repr

/-- Fresh store state: empty map, #size = 0, empty ledger. -/
def initialState : FilesState := ⟨[], 0, []⟩

/-- JS Map.has on the modification ledger. -/
def mapHas (m : List (String × Text)) (k : String) : Bool :=
  m.any (fun kv => kv.1 == k)

/-- JS Map.get on the modification ledger. -/
def mapGet (m : List (String × Text)) (k : String) : Option Text :=
  (m.find? (fun kv => kv.1 == k)).map (fun kv => kv.2)

/-- JS Map.set on the modification ledger: replace in place, or append. -/
def mapSet (m : List (String × Text)) (k : String) (v : Text) : List (String × Text) :=
  if mapHas m k then m.map (fun kv => if kv.1 == k then (k, v) else kv)
  else m ++ [(k, v)]

/-- path.replace of the trailing-slash regex with the empty string: strips
every trailing slash character from the path. -/
def sanitizePath (p : String) : String :=
  ⟨(p.data.reverse.dropWhile (fun c => c == '/')).reverse⟩

/-- JS String.prototype.startsWith: s starts with the pattern string. -/
def strStartsWith (s pat : String) : Bool :=
  pat.data.isPrefixOf s.data

/-- JS String.prototype.endsWith: s ends with the pattern string. -/
def strEndsWith (s pat : String) : Bool :=
  pat.data.reverse.isPrefixOf s.data.reverse

/-- Convert a string literal to its code-point Text model. -/
def strToText (s : String) : Text := s.data.map Char.toNat

/-- Whether a byte is a UTF-8 continuation byte (0x80..0xBF). -/
def isContByte (b : Nat) : Bool := decide (0x80 ≤ b ∧ b ≤ 0xBF)

/-- Strict UTF-8 decoder: models TextDecoder with the fatal flag set, as used
by the module-level utf8TextDecoder.  Returns the decoded code points, or
none when the byte sequence is malformed (overlong forms, surrogates, code
points above 0x10FFFF and truncated sequences all rejected).  The only
divergence from the browser decoder is that a leading byte-order mark is kept
as the code point 0xFEFF instead of being stripped; no claim depends on it. -/
def utf8Decode : List Nat → Option (List Nat)
  | [] => some []
  | b0 :: rest =>
    if b0 ≤ 0x7F then
      (utf8Decode rest).map (fun cs => b0 :: cs)
    else if b0 < 0xC2 then none
    else if b0 ≤ 0xDF then
      match rest with
      | b1 :: rest1 =>
        if isContByte b1 then
          (utf8Decode rest1).map (fun cs => ((b0 - 0xC0) * 0x40 + (b1 - 0x80)) :: cs)
        else none
      | [] => none
    else if b0 ≤ 0xEF then
      match rest with
      | b1 :: b2 :: rest2 =>
        if isContByte b1 ∧ isContByte b2 ∧ (b0 = 0xE0 → 0xA0 ≤ b1) ∧ (b0 = 0xED → b1 ≤ 0x9F) then
          (utf8Decode rest2).map
            (fun cs => ((b0 - 0xE0) * 0x1000 + (b1 - 0x80) * 0x40 + (b2 - 0x80)) :: cs)
        else none
      | _ => none
    else if b0 ≤ 0xF4 then
      match rest with
      | b1 :: b2 :: b3 :: rest3 =>
        if isContByte b1 ∧ isContByte b2 ∧ isContByte b3 ∧
            (b0 = 0xF0 → 0x90 ≤ b1) ∧ (b0 = 0xF4 → b1 ≤ 0x8F) then
          (utf8Decode rest3).map
            (fun cs =>
              ((b0 - 0xF0) * 0x40000 + (b1 - 0x80) * 0x1000 + (b2 - 0x80) * 0x40 + (b3 - 0x80)) :: cs)
        else none
      | _ => none
    else none

/-- istextorbinary byte test: 11110xxx (first byte of a 4-byte character). -/
def isFirstByteOf4 (b : Nat) : Bool := decide (b / 8 = 30)

/-- istextorbinary byte test: 1110xxxx (first byte of a 3-byte character). -/
def isFirstByteOf3 (b : Nat) : Bool := decide (b / 16 = 14)

/-- istextorbinary byte test: 110xxxxx (first byte of a 2-byte character). -/
def isFirstByteOf2 (b : Nat) : Bool := decide (b / 32 = 6)

/-- istextorbinary byte test: 10xxxxxx (later byte of a multi-byte character).
Out-of-range reads yield undefined in JS, which these shift tests treat as 0,
so the model reads missing bytes as 0. -/
def isLaterByteOfUtf8 (b : Nat) : Bool := decide (b / 64 = 2)

/-- istextorbinary getChunkBegin: move the chunk start back to a UTF-8
character boundary; none models the JS return value -1 (not found). -/
def getChunkBegin (buf : List Nat) (chunkBegin : Nat) : Option Nat :=
  if chunkBegin = 0 then some 0
  else if ¬ isLaterByteOfUtf8 (buf.getD chunkBegin 0) then some chunkBegin
  else if 3 ≤ chunkBegin ∧ isFirstByteOf4 (buf.getD (chunkBegin - 3) 0) then
    some (chunkBegin - 3)
  else if 2 ≤ chunkBegin ∧
      (isFirstByteOf4 (buf.getD (chunkBegin - 2) 0) ∨ isFirstByteOf3 (buf.getD (chunkBegin - 2) 0)) then
    some (chunkBegin - 2)
  else if 1 ≤ chunkBegin ∧
      (isFirstByteOf4 (buf.getD (chunkBegin - 1) 0) ∨ isFirstByteOf3 (buf.getD (chunkBegin - 1) 0) ∨
        isFirstByteOf2 (buf.getD (chunkBegin - 1) 0)) then
    some (chunkBegin - 1)
  else none

/-- istextorbinary getChunkEnd: extend the chunk end past a straddled
multi-byte UTF-8 character. -/
def getChunkEnd (buf : List Nat) (chunkEnd : Nat) : Nat :=
  if chunkEnd = buf.length then chunkEnd
  else if 3 ≤ chunkEnd ∧ isFirstByteOf4 (buf.getD (chunkEnd - 3) 0) then chunkEnd + 1
  else if 2 ≤ chunkEnd ∧ isFirstByteOf4 (buf.getD (chunkEnd - 2) 0) then chunkEnd + 2
  else if 2 ≤ chunkEnd ∧ isFirstByteOf3 (buf.getD (chunkEnd - 2) 0) then chunkEnd + 1
  else if 1 ≤ chunkEnd ∧ isFirstByteOf4 (buf.getD (chunkEnd - 1) 0) then chunkEnd + 3
  else if 1 ≤ chunkEnd ∧ isFirstByteOf3 (buf.getD (chunkEnd - 1) 0) then chunkEnd + 2
  else if 1 ≤ chunkEnd ∧ isFirstByteOf2 (buf.getD (chunkEnd - 1) 0) then chunkEnd + 1
  else chunkEnd

/-- The encoding verdict of istextorbinary getEncoding. -/
inductive Encoding where
  | utf8
  | binary
deriving DecidableEq, Repr

/-- The binary test istextorbinary runs over one extracted chunk: Node's
Buffer.toString with utf8 decodes the chunk leniently, emitting U+FFFD
replacement characters for malformed sequences, and the scan flags the chunk
as binary when any UTF-16 unit is 65533 or at most 8.  A chunk produces a
replacement character exactly when it is not valid UTF-8, and a decoded code
point is 65533 or at most 8 exactly when one of its UTF-16 units is (units of
supplementary-plane characters are surrogates, which are neither), so this is
equivalently: the chunk fails strict decoding, or some decoded code point is
65533 or a control character at most 8. -/
def chunkIsBinary (chunk : List Nat) : Bool :=
  match utf8Decode chunk with
  | none => true
  | some cps => cps.any (fun c => decide (c = 65533) || decide (c ≤ 8))

/-- istextorbinary getEncoding with an explicit chunkBegin: align the chunk
to character boundaries, extract it, and test it. -/
def getEncodingAt (buf : List Nat) (chunkLength chunkBegin : Nat) : Encoding :=
  match getChunkBegin buf chunkBegin with
  | none => .binary
  | some b =>
    let e := getChunkEnd buf (Nat.min buf.length (b + chunkLength))
    if buf.length < e then .binary
    else if chunkIsBinary ((buf.drop b).take (e - b)) then .binary
    else .utf8

/-- istextorbinary getEncoding without a chunkBegin option: test the start,
middle and end chunks, reporting binary as soon as one chunk is binary.
The JS offsets Math.max(0, len / 2 - chunkLength) and
Math.max(0, len - chunkLength) coincide with truncated Nat subtraction. -/
def getEncoding (buf : List Nat) (chunkLength : Nat) : Encoding :=
  match getEncodingAt buf chunkLength 0 with
  | .binary => .binary
  | .utf8 =>
    match getEncodingAt buf chunkLength (buf.length / 2 - chunkLength) with
    | .binary => .binary
    | .utf8 => getEncodingAt buf chunkLength (buf.length - chunkLength)

/-- isBinaryFile from files.ts: undefined buffers are not binary; otherwise
run getEncoding with chunkLength 100 and compare against binary. -/
def isBinaryFile (buffer : Option (List Nat)) : Bool :=
  match buffer with
  | none => false
  | some b => decide (getEncoding b 100 = Encoding.binary)

/-- FilesStore.#decodeFileContent: undefined or empty buffers decode to the
empty string; otherwise strict UTF-8 decoding, with decode failures caught,
logged and replaced by the empty string (never re-raised). -/
def decodeFileContent (buffer : Option (List Nat)) : Text :=
  match buffer with
  | none => []
  | some b =>
    if b.length = 0 then []
    else
      match utf8Decode b with
      | some s => s
      | none => []

/-- The classification step of the add_file and change cases in
FilesStore.#processEventBuffer: content starts as the empty string, the
buffer is classified, and only non-binary buffers are decoded. -/
def classifyBuffer (buffer : Option (List Nat)) : Bool × Text :=
  let isBinary := isBinaryFile buffer
  let content := if isBinary then [] else decodeFileContent buffer
  (isBinary, content)


/-- PathWatcherEvent from the container watch API: kind, path, and an
optional byte buffer (only add_file and change carry one). -/
inductive PathWatcherEvent where
  | add_dir (path : String)
  | remove_dir (path : String)
  | add_file (path : String) (buffer : Option (List Nat))
  | change (path : String) (buffer : Option (List Nat))
  | remove_file (path : String)
  | update_directory (path : String)
deriving DecidableEq, Repr

/-- The own enumerable property names of a nanostores MapStore object: the
methods and fields of the store itself, as enumerated by Object.entries when
it is applied to the store rather than to the plain object it holds. -/
def mapStoreOwnKeys : List String :=
  ["get", "lc", "listen", "notify", "off", "set", "subscribe", "value", "setKey"]

/-- One iteration of FilesStore.#processEventBuffer's event loop.

The remove_dir case preserves a bug of the source: the cascade loop iterates
Object.entries(this.files), i.e. the own properties of the MapStore object
itself (method names such as "get" and "setKey"), not the path-to-Dirent
entries of this.files.get(); direntPath therefore ranges over those property
names, whose deletion from the file map is a no-op, and descendant paths of
the removed directory are never set to absent. -/
def processEvent (st : FilesState) (ev : PathWatcherEvent) : FilesState :=
  match ev with
  | .add_dir path =>
    { st with files := setKey st.files (sanitizePath path) (some .folder) }
  | .remove_dir path =>
    let sp := sanitizePath path
    let files1 := setKey st.files sp none
    let files2 := mapStoreOwnKeys.foldl
      (fun acc direntPath =>
        if strStartsWith direntPath sp then setKey acc direntPath none else acc)
      files1
    { st with files := files2 }
  | .add_file path buffer =>
    let c := classifyBuffer buffer
    { st with
      size := st.size + 1
      files := setKey st.files (sanitizePath path) (some (.file c.2 c.1)) }
  | .change path buffer =>
    let c := classifyBuffer buffer
    { st with files := setKey st.files (sanitizePath path) (some (.file c.2 c.1)) }
  | .remove_file path =>
    { st with
      size := st.size - 1
      files := setKey st.files (sanitizePath path) none }
  | .update_directory _ => st

/-- FilesStore.#processEventBuffer on an already-flattened batch of events,
applied strictly in order. -/
def processEventBuffer (st : FilesState) (events : List PathWatcherEvent) : FilesState :=
  events.foldl processEvent st

/-- FilesStore.getFile: the dirent at the path if it is a file, else
undefined. -/
def getFile (st : FilesState) (filePath : String) : Option Dirent :=
  match lookupKey st.files filePath with
  | some (.file content isBinary) => some (.file content isBinary)
  | _ => none

/-- The failure modes of FilesStore.saveFile.  invariantViolation is
modelled from the spec: the ~/utils/unreachable helper (not part of the
provided sources) aborts with a fatal invariant-violation error, per the
spec's fatal/programming-error taxonomy. -/
inductive SaveError where
  | einval
  | invariantViolation
  | writeFailed
deriving DecidableEq, Repr

/-- The observable outcome of a saveFile call: the store state after the
call, the container writeFile calls issued (target path and content), and
the error propagated to the caller, if any. -/
structure SaveOutcome where
  state : FilesState
  writes : List (String × Text)
  error : Option SaveError
deriving DecidableEq, Repr

/-- FilesStore.saveFile.  relativePath stands for the value of
nodePath.relative(webcontainer.workdir, filePath) — path resolution lives in
the node:path library and only the emptiness of its result is consulted —
and writeOk stands for whether the awaited container writeFile call
succeeds.  The JS truthiness test on oldContent sends both an undefined and
an empty-string content into the unreachable branch.  The container write
precedes both the ledger update and the tree update, so a failed write
re-raises after the attempt with the state untouched; the ledger records the
pre-write content only when the path has no entry yet. -/
def saveFile (st : FilesState) (filePath relativePath : String) (content : Text)
    (writeOk : Bool) : SaveOutcome :=
  if relativePath = "" then ⟨st, [], some .einval⟩
  else
    match getFile st filePath with
    | some (.file oldContent _) =>
      if oldContent = [] then ⟨st, [], some .invariantViolation⟩
      else if writeOk then
        let ledger :=
          if mapHas st.modifiedFiles filePath then st.modifiedFiles
          else mapSet st.modifiedFiles filePath oldContent
        ⟨{ st with
            files := setKey st.files filePath (some (.file content false))
            modifiedFiles := ledger },
          [(relativePath, content)], none⟩
      else ⟨st, [(relativePath, content)], some .writeFailed⟩
    | _ => ⟨st, [], some .invariantViolation⟩

mutual
/-- A source-tree entry handed to loadFromFileSystem by the File System
Access API: a file with text content, or a directory with an ordered list of
child entries. -/
inductive FsEntry where
  | file (name : String) (content : Text)
  | dir (name : String) (entries : FsEntries)
/-- An ordered list of source-tree entries (the iteration order of
handle.values()). -/
inductive FsEntries where
  | nil
  | cons (e : FsEntry) (es : FsEntries)
end

/-- The container-visible outcome of a bulk import: mkdir calls, writeFile
calls, and the uploadedFiles log entries appended, each in issue order.  The
opaque random id of an UploadedFile record is omitted from the model. -/
structure LoadResult where
  mkdirs : List String
  writes : List (String × Text)
  uploaded : List (String × Text)
deriving DecidableEq, Repr

/-- Relative entry path construction in processDirectory: currentPath/name,
or just the name at the root. -/
def joinPath (currentPath name : String) : String :=
  if currentPath = "" then name else currentPath ++ "/" ++ name

/-- nodePath.dirname, for the slash-joined relative paths processDirectory
builds (no leading, trailing or repeated separators): everything before the
last slash, or "." when there is no slash. -/
def dirname (p : String) : String :=
  if p.data.contains '/' then
    ⟨((p.data.reverse.dropWhile (fun c => c != '/')).drop 1).reverse⟩
  else "." 

mutual
/-- One iteration of the for-await loop in processDirectory
(FilesStore.loadFromFileSystem), with ig the black-box ignore predicate:
skip ignored entry paths; for a file, create its parent directory when the
dirname is not ".", write the content into the container under the relative
entry path, and append an uploadedFiles record; for a directory, create it
and recurse. -/
def processEntry (ig : String → Bool) (currentPath : String) (acc : LoadResult) :
    FsEntry → LoadResult
  | .file name content =>
    let entryPath := joinPath currentPath name
    if ig entryPath then acc
    else
      let acc1 :=
        if dirname entryPath ≠ "." then
          { acc with mkdirs := acc.mkdirs ++ [dirname entryPath] }
        else acc
      { acc1 with
        writes := acc1.writes ++ [(entryPath, content)]
        uploaded := acc1.uploaded ++ [(entryPath, content)] }
  | .dir name entries =>
    let entryPath := joinPath currentPath name
    if ig entryPath then acc
    else processEntries ig entryPath { acc with mkdirs := acc.mkdirs ++ [entryPath] } entries
termination_by structural e => e

/-- The full for-await loop of processDirectory over an entry list, in
order. -/
def processEntries (ig : String → Bool) (currentPath : String) (acc : LoadResult) :
    FsEntries → LoadResult
  | .nil => acc
  | .cons e es => processEntries ig currentPath (processEntry ig currentPath acc e) es
termination_by structural es => es
end

/-- Modelled from the spec: the ignore npm package is consumed as a
black-box gitignore-style predicate matching relative paths against a rule
set; ofContent builds the predicate from the text of a .gitignore file,
ofList from a hard-coded list of rules. -/
structure IgnoreModel where
  ofContent : Text → String → Bool
  ofList : List String → String → Bool

/-- The hard-coded default exclusion rules of loadFromFileSystem, used when
reading .gitignore fails. -/
def defaultIgnoreRules : List String :=
  ["node_modules", ".git", "dist", "build", ".cache", "*.log", ".DS_Store"]

/-- sourceHandle.getFileHandle applied to ".gitignore" followed by reading
its text: the content of the root-level file named .gitignore, or none when
no such file exists (which makes getFileHandle throw, caught by the
fallback). -/
def findGitignore : FsEntries → Option Text
  | .nil => none
  | .cons (.file name content) rest =>
    if name = ".gitignore" then some content else findGitignore rest
  | .cons (.dir _ _) rest => findGitignore rest

/-- FilesStore.loadFromFileSystem: pick the ignore predicate from the root
.gitignore file when present, else from the default rule list, then walk the
source tree from the root with an empty current path. -/
def loadFromFileSystem (im : IgnoreModel) (root : FsEntries) : LoadResult :=
  let ig :=
    match findGitignore root with
    | some g => im.ofContent g
    | none => im.ofList defaultIgnoreRules
  processEntries ig "" ⟨[], [], []⟩ root

/-! ## Basic lemmas about the map operations -/

theorem filter_ne_find?_none (m : FileMap) (k : String) :
    (m.filter (fun kv => kv.1 != k)).find? (fun kv => kv.1 == k) = none := by
  rw [List.find?_eq_none]
  intro kv hkv
  have h := (List.mem_filter.mp hkv).2
  simp only [bne_iff_ne, ne_eq, decide_eq_true_eq] at h
  simp [h]

theorem find?_false (m : FileMap) : m.find? (fun _ => false) = none := by
  rw [List.find?_eq_none]
  simp

theorem lookupKey_setKey_self (m : FileMap) (k : String) (v : Option Dirent) :
    lookupKey (setKey m k v) k = v := by
  cases v with
  | none => simp [lookupKey, setKey, find?_false]
  | some d => simp [lookupKey, setKey, List.find?_append, find?_false]

theorem mapHas_append_self (l : List (String × Text)) (k : String) (v : Text) :
    mapHas (l ++ [(k, v)]) k = true := by
  simp [mapHas]

theorem mapGet_append_self (l : List (String × Text)) (k : String) (v : Text)
    (h : mapHas l k = false) : mapGet (l ++ [(k, v)]) k = some v := by
  have hnone : l.find? (fun kv => kv.1 == k) = none := by
    rw [List.find?_eq_none]
    intro kv hkv
    simp only [mapHas, List.any_eq_false] at h
    exact h kv hkv
  simp [mapGet, List.find?_append, hnone]

/-! ## Concrete scenario inputs -/

/-- A store holding the directory /src and the file /src/a.ts with content
"x": the input on which the remove_dir cascade is exercised. -/
def c1Start : FilesState :=
  ⟨[("/src", Dirent.folder), ("/src/a.ts", Dirent.file (strToText "x") false)], 1, []⟩

/-- The event batch of the spec scenario: add /src, add file /src/a.ts with
buffer "x", add /src/sub, add file /src/sub/b.ts with buffer "y", remove
directory /src. -/
def c2Batch : List PathWatcherEvent :=
  [.add_dir "/src",
   .add_file "/src/a.ts" (some (strToText "x")),
   .add_dir "/src/sub",
   .add_file "/src/sub/b.ts" (some (strToText "y")),
   .remove_dir "/src"]

/-- The store state after applying the scenario batch to a fresh store. -/
def c2Final : FilesState := processEventBuffer initialState c2Batch

/-- A concrete ignore-library instance for the rule set consisting of the
single rule *.log: it matches exactly the relative paths ending in ".log"
(no path in the scenario tree places a .log component elsewhere). -/
def logOnlyIgnore : IgnoreModel :=
  ⟨fun _g p => strEndsWith p ".log", fun _rules _p => false⟩

/-- The scenario source tree: a root holding .gitignore (content *.log),
error.log and main.ts. -/
def c8Root : FsEntries :=
  .cons (.file ".gitignore" (strToText "*.log"))
    (.cons (.file "error.log" (strToText "oops"))
      (.cons (.file "main.ts" (strToText "x")) .nil))

/-- All container writes and all uploadedFiles records of a LoadResult have
non-ignored paths. -/
def resultExcludes (ig : String → Bool) (r : LoadResult) : Prop :=
  (∀ pc ∈ r.writes, ig pc.1 = false) ∧ (∀ pc ∈ r.uploaded, ig pc.1 = false)

/-- A store whose tree holds /work/a.ts with content "old": the saveFile
scenario input. -/
def c4Start : FilesState :=
  ⟨[("/work/a.ts", Dirent.file (strToText "old") false)], 1, []⟩

/-- A store whose tree holds /work/empty.ts as a file with empty content. -/
def c5Start : FilesState :=
  ⟨[("/work/empty.ts", Dirent.file [] false)], 1, []⟩

/-! ## Walk invariant: recorded paths are never ignored -/

mutual
theorem processEntry_excludes (ig : String → Bool) (currentPath : String) (acc : LoadResult)
    (e : FsEntry) (h : resultExcludes ig acc) :
    resultExcludes ig (processEntry ig currentPath acc e) := by
  cases e with
  | file name content =>
    by_cases hig : ig (joinPath currentPath name) = true
    · simpa [processEntry, hig] using h
    · have hig' : ig (joinPath currentPath name) = false := by
        cases hg : ig (joinPath currentPath name)
        · rfl
        · exact absurd hg hig
      by_cases hd : dirname (joinPath currentPath name) = "."
      · refine ⟨?_, ?_⟩ <;>
        · intro pc hpc
          simp only [processEntry, hig', Bool.false_eq_true, if_false, hd, ne_eq,
            not_true_eq_false, if_false] at hpc
          rcases List.mem_append.mp hpc with hm | hm
          · first
            | exact h.1 pc hm
            | exact h.2 pc hm
          · rcases List.mem_singleton.mp hm with rfl
            exact hig'
      · refine ⟨?_, ?_⟩ <;>
        · intro pc hpc
          simp only [processEntry, hig', Bool.false_eq_true, if_false, hd, ne_eq,
            not_false_eq_true, if_true] at hpc
          rcases List.mem_append.mp hpc with hm | hm
          · first
            | exact h.1 pc hm
            | exact h.2 pc hm
          · rcases List.mem_singleton.mp hm with rfl
            exact hig'
  | dir name entries =>
    by_cases hig : ig (joinPath currentPath name) = true
    · simpa [processEntry, hig] using h
    · have hig' : ig (joinPath currentPath name) = false := by
        cases hg : ig (joinPath currentPath name)
        · rfl
        · exact absurd hg hig
      have h' : resultExcludes ig
          { acc with mkdirs := acc.mkdirs ++ [joinPath currentPath name] } := ⟨h.1, h.2⟩
      have := processEntries_excludes ig (joinPath currentPath name)
        { acc with mkdirs := acc.mkdirs ++ [joinPath currentPath name] } entries h'
      simpa [processEntry, hig'] using this
termination_by structural e

theorem processEntries_excludes (ig : String → Bool) (currentPath : String) (acc : LoadResult)
    (es : FsEntries) (h : resultExcludes ig acc) :
    resultExcludes ig (processEntries ig currentPath acc es) := by
  cases es with
  | nil => simpa [processEntries] using h
  | cons e es' =>
    have h1 := processEntry_excludes ig currentPath acc e h
    have h2 := processEntries_excludes ig currentPath (processEntry ig currentPath acc e) es' h1
    simpa [processEntries] using h2
termination_by structural es
end

/-! ## Claim theorems -/

/-- Claim C1: the spec requires a remove_dir event for P to set absent every
previously-present key with P as a strict path-prefix.  The code does not:
its cascade loop iterates the MapStore object's own properties instead of
the file-map entries, so it is dead code.  Evaluated at the failing input (a
tree holding /src and /src/a.ts), processing remove_dir for /src removes the
key /src itself but leaves the descendant /src/a.ts present. -/
theorem c1_remove_dir_does_not_cascade :
    lookupKey (processEvent c1Start (.remove_dir "/src")).files "/src" = none ∧
    lookupKey (processEvent c1Start (.remove_dir "/src")).files "/src/a.ts" =
      some (.file (strToText "x") false) := by
  decide

/-- Claim C2, counterexample: the spec scenario asserts that after the batch
the tree has no present entries under /src and the file counter is 0; in
fact the file /src/a.ts is still present and the counter is 2, so both
asserted conjuncts are false at the scenario input. -/
theorem c2_scenario_counterexample :
    lookupKey c2Final.files "/src/a.ts" ≠ none ∧ c2Final.size ≠ 0 := by
  decide

/-- Claim C2, amended: applying the scenario batch to a fresh store removes
only the key /src itself (the cascade loop of remove_dir is dead code) and
leaves /src/a.ts, /src/sub and /src/sub/b.ts present; the file counter ends
at 2, since only the two add_file events touch it and remove_dir never
does. -/
theorem c2_scenario_actual :
    lookupKey c2Final.files "/src" = none ∧
    lookupKey c2Final.files "/src/a.ts" = some (.file (strToText "x") false) ∧
    lookupKey c2Final.files "/src/sub" = some Dirent.folder ∧
    lookupKey c2Final.files "/src/sub/b.ts" = some (.file (strToText "y") false) ∧
    c2Final.size = 2 := by
  decide

/-- Claim C3: for every starting state, every path P without trailing
slashes and any byte buffers, applying add_file(P), change(P),
remove_file(P) in order leaves P absent from the tree and returns the
running file counter to its pre-sequence value (change never touches it). -/
theorem c3_add_change_remove_roundtrip (st : FilesState) (p : String)
    (b1 b2 : Option (List Nat)) (h : sanitizePath p = p) :
    lookupKey (processEventBuffer st
      [.add_file p b1, .change p b2, .remove_file p]).files p = none ∧
    (processEventBuffer st [.add_file p b1, .change p b2, .remove_file p]).size = st.size := by
  constructor
  · simp [processEventBuffer, processEvent, h, lookupKey_setKey_self]
  · simp [processEventBuffer, processEvent]

/-- Witness for C3 at a concrete input: the path /a.ts has no trailing
slash, and the sequence applied to a fresh store leaves /a.ts absent with
the counter back at the initial value. -/
theorem c3_witness :
    sanitizePath "/a.ts" = "/a.ts" ∧
    (lookupKey (processEventBuffer initialState
        [.add_file "/a.ts" (some [120]), .change "/a.ts" none, .remove_file "/a.ts"]).files
        "/a.ts" = none ∧
      (processEventBuffer initialState
        [.add_file "/a.ts" (some [120]), .change "/a.ts" none,
          .remove_file "/a.ts"]).size = initialState.size) :=
  ⟨by decide, c3_add_change_remove_roundtrip initialState "/a.ts" (some [120]) none (by decide)⟩

/-- Claim C10: a remove_file event decrements the running file counter by
one regardless of whether the path is present, so a single remove_file on a
fresh (empty) store drives the counter to the negative value -1. -/
theorem c10_remove_file_counter_unconditional :
    (∀ st : FilesState, ∀ p : String,
      (processEvent st (.remove_file p)).size = st.size - 1) ∧
    (processEventBuffer initialState [.remove_file "/a"]).size = -1 ∧
    (processEventBuffer initialState [.remove_file "/a"]).size < 0 := by
  refine ⟨fun st p => ?_, by decide, by decide⟩
  simp [processEvent]

/-- Claim C4: on a path whose entry is a File with non-empty content and no
prior ledger entry, a first successful saveFile reports no error, records
the pre-write content as the ledger original, updates the tree entry to a
non-binary File holding the new content, and issues exactly one container
write; a second successful saveFile on the same path leaves the recorded
ledger original unchanged. -/
theorem c4_saveFile_ledger_once (st : FilesState) (fp rel : String)
    (newC newer old : Text) (bin : Bool)
    (hFile : getFile st fp = some (.file old bin))
    (hOld : old ≠ [])
    (hLedger : mapHas st.modifiedFiles fp = false)
    (hRel : rel ≠ "")
    (hNew : newC ≠ []) :
    (saveFile st fp rel newC true).error = none ∧
    mapGet (saveFile st fp rel newC true).state.modifiedFiles fp = some old ∧
    lookupKey (saveFile st fp rel newC true).state.files fp = some (.file newC false) ∧
    (saveFile st fp rel newC true).writes.length = 1 ∧
    (saveFile (saveFile st fp rel newC true).state fp rel newer true).error = none ∧
    mapGet (saveFile (saveFile st fp rel newC true).state fp rel
      newer true).state.modifiedFiles fp = some old := by
  have ho1 : saveFile st fp rel newC true =
      ⟨{ st with
          files := setKey st.files fp (some (.file newC false))
          modifiedFiles := st.modifiedFiles ++ [(fp, old)] },
        [(rel, newC)], none⟩ := by
    simp [saveFile, hFile, hOld, hRel, hLedger, mapSet]
  rw [ho1]
  dsimp only
  have hFile2 : getFile
      { st with
        files := setKey st.files fp (some (.file newC false))
        modifiedFiles := st.modifiedFiles ++ [(fp, old)] } fp =
      some (.file newC false) := by
    simp [getFile, lookupKey_setKey_self]
  have ho2 : saveFile
      { st with
        files := setKey st.files fp (some (.file newC false))
        modifiedFiles := st.modifiedFiles ++ [(fp, old)] } fp rel newer true =
      ⟨{ st with
          files := setKey (setKey st.files fp (some (.file newC false))) fp
            (some (.file newer false))
          modifiedFiles := st.modifiedFiles ++ [(fp, old)] },
        [(rel, newer)], none⟩ := by
    simp [saveFile, hFile2, hNew, hRel, mapHas_append_self]
  rw [ho2]
  dsimp only
  exact ⟨rfl, mapGet_append_self st.modifiedFiles fp old hLedger,
    lookupKey_setKey_self st.files fp (some (.file newC false)), rfl, rfl,
    mapGet_append_self st.modifiedFiles fp old hLedger⟩

/-- Witness for C4 at a concrete input: the tree holds /work/a.ts with
content "old", the ledger is empty, saving "new" then "newer" succeeds with
the stated outcomes. -/
theorem c4_witness :
    getFile c4Start "/work/a.ts" = some (.file (strToText "old") false) ∧
    strToText "old" ≠ [] ∧
    mapHas c4Start.modifiedFiles "/work/a.ts" = false ∧
    "work/a.ts" ≠ "" ∧
    strToText "new" ≠ [] ∧
    ((saveFile c4Start "/work/a.ts" "work/a.ts" (strToText "new") true).error = none ∧
      mapGet (saveFile c4Start "/work/a.ts" "work/a.ts" (strToText "new")
        true).state.modifiedFiles "/work/a.ts" = some (strToText "old") ∧
      lookupKey (saveFile c4Start "/work/a.ts" "work/a.ts" (strToText "new")
        true).state.files "/work/a.ts" = some (.file (strToText "new") false) ∧
      (saveFile c4Start "/work/a.ts" "work/a.ts" (strToText "new") true).writes.length = 1 ∧
      (saveFile (saveFile c4Start "/work/a.ts" "work/a.ts" (strToText "new") true).state
        "/work/a.ts" "work/a.ts" (strToText "newer") true).error = none ∧
      mapGet (saveFile (saveFile c4Start "/work/a.ts" "work/a.ts" (strToText "new") true).state
        "/work/a.ts" "work/a.ts" (strToText "newer")
        true).state.modifiedFiles "/work/a.ts" = some (strToText "old")) :=
  ⟨by decide, by decide, by decide, by decide, by decide,
    c4_saveFile_ledger_once c4Start "/work/a.ts" "work/a.ts" (strToText "new")
      (strToText "newer") (strToText "old") false (by decide) (by decide) (by decide)
      (by decide) (by decide)⟩

/-- Claim C5: when the tree entry at the path is a File whose content is the
empty string, saveFile takes the fatal invariant-violation (unreachable)
branch — the JS truthiness test rejects the empty string even though the
entry exists with defined content — performing no container write and
leaving the tree and ledger exactly as they were. -/
theorem c5_saveFile_empty_content_aborts (st : FilesState) (fp rel : String)
    (newC : Text) (bin : Bool) (writeOk : Bool)
    (hFile : getFile st fp = some (.file [] bin))
    (hRel : rel ≠ "") :
    saveFile st fp rel newC writeOk = ⟨st, [], some .invariantViolation⟩ := by
  simp [saveFile, hFile, hRel]

/-- Witness for C5 at a concrete input: /work/empty.ts is present as a file
with empty content, and saveFile aborts with the invariant violation,
leaving the state unchanged. -/
theorem c5_witness :
    getFile c5Start "/work/empty.ts" = some (.file [] false) ∧
    "work/empty.ts" ≠ "" ∧
    saveFile c5Start "/work/empty.ts" "work/empty.ts" (strToText "new") true =
      ⟨c5Start, [], some .invariantViolation⟩ :=
  ⟨by decide, by decide,
    c5_saveFile_empty_content_aborts c5Start "/work/empty.ts" "work/empty.ts"
      (strToText "new") false true (by decide) (by decide)⟩

/-- Claim C9: when the container write fails, saveFile re-raises the write
error to the caller after issuing the single attempted write, and the store
state — both the tree entry and the ledger entry — is exactly the state
before the call, because the write precedes every mutation. -/
theorem c9_saveFile_write_failure_atomic (st : FilesState) (fp rel : String)
    (newC old : Text) (bin : Bool)
    (hFile : getFile st fp = some (.file old bin))
    (hOld : old ≠ [])
    (hRel : rel ≠ "") :
    saveFile st fp rel newC false = ⟨st, [(rel, newC)], some .writeFailed⟩ := by
  simp [saveFile, hFile, hOld, hRel]

/-- Witness for C9 at a concrete input: a failed container write on
/work/a.ts re-raises and leaves the state untouched. -/
theorem c9_witness :
    getFile c4Start "/work/a.ts" = some (.file (strToText "old") false) ∧
    strToText "old" ≠ [] ∧
    "work/a.ts" ≠ "" ∧
    saveFile c4Start "/work/a.ts" "work/a.ts" (strToText "new") false =
      ⟨c4Start, [("work/a.ts", strToText "new")], some .writeFailed⟩ :=
  ⟨by decide, by decide, by decide,
    c9_saveFile_write_failure_atomic c4Start "/work/a.ts" "work/a.ts"
      (strToText "new") (strToText "old") false (by decide) (by decide) (by decide)⟩

/-- Claim C6: binary classification is a pure, deterministic function of the
byte buffer alone — in this embedding it takes no store state and can modify
none, and any two classifications of equal buffers (including the absent
buffer) yield the same isBinary flag and decoded text. -/
theorem c6_classification_deterministic (b1 b2 : Option (List Nat)) (h : b1 = b2) :
    classifyBuffer b1 = classifyBuffer b2 := by
  rw [h]

/-- Witness for C6 at a concrete input: two classifications of the buffer
holding the byte 120 agree, and both are the non-binary "x". -/
theorem c6_witness :
    (some [120] : Option (List Nat)) = some [120] ∧
    classifyBuffer (some [120]) = classifyBuffer (some [120]) ∧
    classifyBuffer (some [120]) = (false, [120]) :=
  ⟨rfl, c6_classification_deterministic (some [120]) (some [120]) rfl, by decide⟩

/-- Claim C7: classifying an absent or zero-length buffer yields the
non-binary empty result, and whenever strict UTF-8 decoding of a buffer
fails, decodeFileContent returns the empty string (the decode error is
caught, never re-raised — the model is a total function). -/
theorem c7_decode_fallbacks :
    classifyBuffer none = (false, []) ∧
    classifyBuffer (some []) = (false, []) ∧
    ∀ b : List Nat, utf8Decode b = none → decodeFileContent (some b) = [] := by
  refine ⟨by decide, by decide, ?_⟩
  intro b hb
  by_cases h0 : b.length = 0
  · simp [decodeFileContent, h0]
  · simp [decodeFileContent, h0, hb]

/-- Witness for C7 at a concrete input: the lone byte 255 is malformed
UTF-8, and decodeFileContent maps it to the empty string. -/
theorem c7_witness :
    utf8Decode [255] = none ∧ decodeFileContent (some [255]) = [] :=
  ⟨by decide, c7_decode_fallbacks.2.2 [255] (by decide)⟩

/-- Claim C8: when the source tree's root holds a .gitignore file, its
contents become the exclusion rule set: every entry path the resulting
matcher accepts is neither written into the container nor appended to the
uploadedFiles log; in particular, importing the scenario tree whose
.gitignore holds the rule *.log writes and records .gitignore and main.ts
but neither writes nor records error.log. -/
theorem c8_gitignore_exclusion (im : IgnoreModel) (root : FsEntries) (g : Text)
    (h : findGitignore root = some g) :
    (∀ pc ∈ (loadFromFileSystem im root).writes, im.ofContent g pc.1 = false) ∧
    (∀ pc ∈ (loadFromFileSystem im root).uploaded, im.ofContent g pc.1 = false) ∧
    (loadFromFileSystem logOnlyIgnore c8Root).writes.map Prod.fst =
      [".gitignore", "main.ts"] ∧
    (loadFromFileSystem logOnlyIgnore c8Root).uploaded.map Prod.fst =
      [".gitignore", "main.ts"] := by
  have base : resultExcludes (im.ofContent g) ⟨[], [], []⟩ := by
    constructor <;> intro pc hpc <;> cases hpc
  have main := processEntries_excludes (im.ofContent g) "" ⟨[], [], []⟩ root base
  have hload : loadFromFileSystem im root = processEntries (im.ofContent g) "" ⟨[], [], []⟩ root := by
    simp [loadFromFileSystem, h]
  rw [hload]
  exact ⟨main.1, main.2, by decide, by decide⟩

/-- Witness for C8 at the scenario input: the root .gitignore holds *.log,
and the matcher built from it rejects every written and recorded path. -/
theorem c8_witness :
    findGitignore c8Root = some (strToText "*.log") ∧
    (∀ pc ∈ (loadFromFileSystem logOnlyIgnore c8Root).writes,
      logOnlyIgnore.ofContent (strToText "*.log") pc.1 = false) ∧
    (∀ pc ∈ (loadFromFileSystem logOnlyIgnore c8Root).uploaded,
      logOnlyIgnore.ofContent (strToText "*.log") pc.1 = false) :=
  ⟨by decide,
    (c8_gitignore_exclusion logOnlyIgnore c8Root (strToText "*.log") (by decide)).1,
    (c8_gitignore_exclusion logOnlyIgnore c8Root (strToText "*.log") (by decide)).2.1⟩
